import Mathlib

/-!
Verification of the react-routing-demo repository: a declarative route
table (`Routes.js` in the README), a persistent `Navbar` of `NavLink`s,
a `PostList` whose `Link`s carry a post as navigation state, and a
`PostDetail` handler reading the `id` URL parameter and the state payload.

The route matching, active-link determination and location/state
semantics live in the third-party `react-router-dom` library, which is
not part of the repository; those parts are modelled from the spec
(definitions marked `Modelled from the spec:`). The route table, the
components and the posts list are translated from the repository source.
-/

namespace RouterDemo


/-- Modelled from the spec: a pattern segment is a literal, a named
parameter (written `:name` in the pattern string), or the wildcard `*`. -/
inductive Seg where
  | lit : String → Seg
  | par : String → Seg
  | wild : Seg
deriving DecidableEq

/-- Modelled from the spec: classify one `/`-delimited pattern segment.
A segment whose characters begin with a colon is a named parameter, the
segment `*` is the wildcard, anything else is a literal. -/
def parseSegment (s : String) : Seg :=
  if s = "*" then Seg.wild
  else
    match s.data with
    | ':' :: rest => Seg.par (String.mk rest)
    | _ => Seg.lit s

/-- Accumulator-based splitter over the character list of a path:
`/` is the delimiter, empty segments are dropped. -/
def splitAux : List Char → List Char → List (List Char)
  | [], cur => if cur = [] then [] else [cur.reverse]
  | c :: cs, cur =>
    if c = '/' then
      if cur = [] then splitAux cs [] else cur.reverse :: splitAux cs []
    else splitAux cs (c :: cur)

/-- Modelled from the spec: split a path string into its `/`-delimited
segments. -/
def splitPath (p : String) : List String :=
  (splitAux p.data []).map (fun l => String.mk l)

/-- Modelled from the spec: parse a pattern string into segments. -/
def parsePattern (pat : String) : List Seg :=
  (splitPath pat).map parseSegment

/-- Modelled from the spec: match a segment pattern against path
segments.  A literal must equal the path segment exactly, a parameter
matches unconditionally and binds its name to the segment's value, and a
trailing wildcard matches any remaining suffix with no bindings. -/
def matchSegs : List Seg → List String → Option (List (String × String))
  | Seg.wild :: _, _ => some []
  | [], [] => some []
  | [], _ :: _ => none
  | _ :: _, [] => none
  | Seg.lit s :: rest, t :: ts => if s = t then matchSegs rest ts else none
  | Seg.par n :: rest, t :: ts => (matchSegs rest ts).map (fun bs => (n, t) :: bs)

/-- The handlers (page components) of the repository. -/
inductive Handler where
  | Home
  | About
  | Contact
  | PostDetailPage
  | NotFound
deriving DecidableEq

/-- A registered route: a pattern string and the handler it renders. -/
structure Route where
  pattern : String
  handler : Handler
deriving DecidableEq

/-- Modelled from the spec: walk the ordered route list; the first route
whose pattern matches the path segments wins. -/
def matchRoutesParts : List Route → List String → Option (Handler × List (String × String))
  | [], _ => none
  | r :: rs, parts =>
    match matchSegs (parsePattern r.pattern) parts with
    | some bs => some (r.handler, bs)
    | none => matchRoutesParts rs parts

/-- Modelled from the spec: match a path string against the route list. -/
def matchRoutes (rs : List Route) (path : String) : Option (Handler × List (String × String)) :=
  matchRoutesParts rs (splitPath path)

/-- The route table registered in `AppRoutes` (README, final version):
`/` → Home, `/about` → About, `/contact` → Contact,
`/posts/:id` → PostDetail, `*` → NotFound. -/
def appRoutes : List Route :=
  [⟨"/", Handler.Home⟩,
   ⟨"/about", Handler.About⟩,
   ⟨"/contact", Handler.Contact⟩,
   ⟨"/posts/:id", Handler.PostDetailPage⟩,
   ⟨"*", Handler.NotFound⟩]

/-- A blog post record as in `Home.js`. -/
structure Post where
  id : Nat
  title : String
  content : String
deriving DecidableEq

/-- The posts list hard-coded in `Home.js`. -/
def homePosts : List Post :=
  [⟨1, "First Post", "This is the first post."⟩,
   ⟨2, "Second Post", "This is the second post."⟩,
   ⟨3, "Third Post", "This is the third post."⟩]

/-- A rendered `Link` element of `PostList`: target path, navigation
state payload, and visible text. -/
structure LinkElem where
  toPath : String
  state : Post
  text : String
deriving DecidableEq

/-- The per-post link of `PostList`:
`<Link to={/posts/${post.id}} state={post}>{post.title}</Link>`. -/
def postLink (post : Post) : LinkElem :=
  ⟨"/posts/" ++ toString post.id, post, post.title⟩

/-- The rendered output of `PostList`: the heading and one link per post. -/
structure PostListView where
  heading : String
  links : List LinkElem
deriving DecidableEq

/-- PostList from the source: renders the heading and maps each post to
its link. -/
def PostList (posts : List Post) : PostListView :=
  ⟨"Blog Posts", posts.map postLink⟩

/-- Modelled from the spec: Current Location — the path plus an optional
opaque navigation payload. -/
structure Location (α : Type) where
  path : String
  state : Option α
deriving DecidableEq

/-- Modelled from the spec: activating a link sets Current Location to
the link's target path with the link's payload attached. -/
def activateLink (l : LinkElem) : Location Post :=
  ⟨l.toPath, some l.state⟩

/-- Modelled from the spec: direct path entry attaches no payload. -/
def directEntry (path : String) : Location Post :=
  ⟨path, none⟩

/-- PostDetail from the source: renders `param: {useParams().id}` and
`state: {useLocation().state.title}`.  Reading `.title` of an absent
(null) state is a TypeError in JavaScript, modelled as `none`
(the render fails); a present state renders both lines. -/
def PostDetail (params : List (String × String)) (state : Option Post) :
    Option (String × String) :=
  match state with
  | some post => some ("param: " ++ ((params.lookup "id").getD ""),
                       "state: " ++ post.title)
  | none => none

/-- Declarative per-position check, as the spec words it: a literal
segment must equal its path segment exactly (case-sensitively, since
string equality is character equality); a parameter segment matches
unconditionally. -/
def segOK : Seg → String → Bool
  | Seg.lit s, t => s == t
  | Seg.par _, _ => true
  | Seg.wild, _ => true

/-- Declarative binding of one position: a parameter segment binds its
name to the path segment's value; other segments bind nothing. -/
def segBind : Seg → String → Option (String × String)
  | Seg.par n, t => some (n, t)
  | _, _ => none

/-- Declarative parameter extraction: the bindings of corresponding
(pattern segment, path segment) positions. -/
def specParams (segs : List Seg) (parts : List String) : List (String × String) :=
  (List.zip segs parts).filterMap (fun sp => segBind sp.1 sp.2)

/-- Does the pattern end in a wildcard segment? -/
def endsWild (segs : List Seg) : Bool :=
  match segs.getLast? with
  | some Seg.wild => true
  | _ => false

/-- Declarative matching condition, as the spec words it: segment counts
are equal (unless the pattern ends in a wildcard segment, which matches
any remaining suffix) and every corresponding position passes `segOK`. -/
def SpecMatches (segs : List Seg) (parts : List String) : Prop :=
  if endsWild segs then
    segs.dropLast.length ≤ parts.length ∧
      ∀ sp ∈ List.zip segs.dropLast parts, segOK sp.1 sp.2 = true
  else
    segs.length = parts.length ∧ ∀ sp ∈ List.zip segs parts, segOK sp.1 sp.2 = true

instance instDecSpecMatches (segs : List Seg) (parts : List String) :
    Decidable (SpecMatches segs parts) := by
  unfold SpecMatches
  infer_instance

/-- Well-formed patterns have a wildcard only as the final segment. -/
def wfSegs : List Seg → Bool
  | [] => true
  | Seg.wild :: rest => rest.isEmpty
  | _ :: rest => wfSegs rest

/-- Closed-form result of matching the registered route table against a
segment list. -/
def routeResult (parts : List String) : Option (Handler × List (String × String)) :=
  match parts with
  | [] => some (Handler.Home, [])
  | [a] =>
    if a = "about" then some (Handler.About, [])
    else if a = "contact" then some (Handler.Contact, [])
    else some (Handler.NotFound, [])
  | [a, b] =>
    if a = "posts" then some (Handler.PostDetailPage, [("id", b)])
    else some (Handler.NotFound, [])
  | _ => some (Handler.NotFound, [])

/-- A string is a valid single path segment when it is nonempty and
contains no slash. -/
def isSeg (s : String) : Bool :=
  !s.data.isEmpty && s.data.all (fun c => c != '/')

/-- Join segments into a path: each segment preceded by a slash. -/
def joinSegs : List String → String
  | [] => ""
  | s :: rest => "/" ++ s ++ joinSegs rest

/-- The path built from a list of segments (the root path for the empty
list). -/
def buildPath (segs : List String) : String :=
  if segs.isEmpty then "/" else joinSegs segs

/-- Modelled from the spec: the target path is a prefix of the current
path at a segment boundary. -/
def pathPrefixOf (target current : String) : Bool :=
  (splitPath target).isPrefixOf (splitPath current)

/-- Modelled from the spec: NavLink active determination — exact-match
mode requires full equality of the target and the current path; default
(prefix) mode requires the target to be a prefix of the current path at
a segment boundary. -/
def isActive (target current : String) (exactMode : Bool) : Bool :=
  if exactMode then target == current else pathPrefixOf target current

/-- A rendered navbar link: target path, label, and active marking. -/
structure NavLinkView where
  toPath : String
  label : String
  active : Bool
deriving DecidableEq

/-- Navbar from the source: NavLinks to `/`, `/about` and `/contact`
(default prefix mode — no exact-match prop is set), each marked active
against the current path. -/
def Navbar (currentPath : String) : List NavLinkView :=
  [⟨"/", "Home", isActive "/" currentPath false⟩,
   ⟨"/about", "About", isActive "/about" currentPath false⟩,
   ⟨"/contact", "Contact", isActive "/contact" currentPath false⟩]

/-- The rendered output of `App`: the navbar shell around the mounted
handler (the matched handler with its bound params). -/
structure AppView where
  navbar : List NavLinkView
  mounted : Option (Handler × List (String × String))
deriving DecidableEq

/-- App from the source: renders the Navbar and the route outlet for the
current location. -/
def App (loc : Location Post) : AppView :=
  ⟨Navbar loc.path, matchRoutes appRoutes loc.path⟩

/-- Does the route at index `i` of the registered table match the path
(in the raw `matchSegs` sense, the wildcard matching everything)? -/
def routeMatchesIdx (path : String) (i : Nat) : Bool :=
  match appRoutes[i]? with
  | some r => (matchSegs (parsePattern r.pattern) (splitPath path)).isSome
  | none => false

/-- Substitute a literal value for each parameter segment. -/
def substSeg (vals : String → String) : Seg → String
  | Seg.lit s => s
  | Seg.par n => vals n
  | Seg.wild => "*"

/-- Substitute literal values for the parameter segments of a pattern. -/
def substSegs (segs : List Seg) (vals : String → String) : List String :=
  segs.map (substSeg vals)

/-- The parameter names of a pattern, in order. -/
def paramNames (segs : List Seg) : List String :=
  segs.filterMap (fun s => match s with | Seg.par n => some n | _ => none)

lemma endsWild_nil : endsWild [] = false := rfl

lemma endsWild_cons_cons (x y : Seg) (l : List Seg) :
    endsWild (x :: y :: l) = endsWild (y :: l) := rfl

lemma endsWild_single_ne (x : Seg) (hx : x ≠ Seg.wild) : endsWild [x] = false := by
  cases x with
  | lit s => rfl
  | par n => rfl
  | wild => exact absurd rfl hx

lemma specMatches_wild (parts : List String) : SpecMatches [Seg.wild] parts := by
  rw [SpecMatches, if_pos (by rfl : endsWild [Seg.wild] = true)]
  constructor
  · simp
  · intro sp hsp
    simp [List.dropLast] at hsp

lemma specParams_wild (parts : List String) : specParams [Seg.wild] parts = [] := by
  cases parts <;> rfl

lemma specParams_nil_left (parts : List String) : specParams [] parts = [] := rfl

lemma specParams_cons_lit (s : String) (rest : List Seg) (t : String) (ts : List String) :
    specParams (Seg.lit s :: rest) (t :: ts) = specParams rest ts := rfl

lemma specParams_cons_par (n : String) (rest : List Seg) (t : String) (ts : List String) :
    specParams (Seg.par n :: rest) (t :: ts) = (n, t) :: specParams rest ts := rfl

lemma specMatches_nil_iff (parts : List String) : SpecMatches [] parts ↔ parts = [] := by
  rw [SpecMatches, if_neg (by decide : ¬ endsWild [] = true)]
  constructor
  · rintro ⟨h1, _⟩
    exact List.length_eq_zero.1 h1.symm
  · rintro rfl
    exact ⟨rfl, by simp⟩

lemma not_specMatches_cons_nil (x : Seg) (rest : List Seg) (hx : x ≠ Seg.wild) :
    ¬ SpecMatches (x :: rest) [] := by
  intro h
  rcases rest with _ | ⟨y, l⟩
  · rw [SpecMatches, endsWild_single_ne x hx,
      if_neg (by decide : ¬ (false = true))] at h
    simp at h
  · by_cases hEW : endsWild (x :: y :: l) = true
    · rw [SpecMatches, if_pos hEW] at h
      have hlen := h.1
      simp [List.dropLast] at hlen
    · rw [SpecMatches, if_neg hEW] at h
      simp at h

lemma specMatches_cons_iff (x : Seg) (rest : List Seg) (t : String) (ts : List String)
    (hx : x ≠ Seg.wild) :
    SpecMatches (x :: rest) (t :: ts) ↔ (segOK x t = true ∧ SpecMatches rest ts) := by
  rcases rest with _ | ⟨y, l⟩
  · rw [SpecMatches, SpecMatches, endsWild_single_ne x hx, endsWild_nil,
      if_neg (by decide : ¬ (false = true)), if_neg (by decide : ¬ (false = true))]
    simp
    constructor
    · rintro ⟨rfl, h⟩
      exact ⟨h, rfl⟩
    · rintro ⟨h, h0⟩
      exact ⟨List.length_eq_zero.1 h0.symm, h⟩
  · rw [SpecMatches, SpecMatches, endsWild_cons_cons]
    by_cases hEW : endsWild (y :: l) = true
    · rw [if_pos hEW, if_pos hEW]
      simp [List.dropLast]
      tauto
    · rw [if_neg hEW, if_neg hEW]
      simp
      tauto

/-- The executable matcher agrees with the declarative matching
condition and the declarative parameter extraction on every well-formed
pattern. -/
lemma matchSegs_eq_spec (segs : List Seg) (hwf : wfSegs segs = true) (parts : List String) :
    matchSegs segs parts =
      if SpecMatches segs parts then some (specParams segs parts) else none := by
  induction segs generalizing parts with
  | nil =>
    cases parts with
    | nil =>
      rw [if_pos ((specMatches_nil_iff []).2 rfl)]
      rfl
    | cons t ts =>
      rw [if_neg (fun h => by simpa using (specMatches_nil_iff (t :: ts)).1 h)]
      rfl
  | cons x rest ih =>
    cases x with
    | wild =>
      have hrest : rest = [] := by
        have : rest.isEmpty = true := hwf
        simpa [List.isEmpty_iff] using this
      subst hrest
      rw [if_pos (specMatches_wild parts), specParams_wild]
      cases parts <;> rfl
    | lit s =>
      have hwf' : wfSegs rest = true := hwf
      cases parts with
      | nil =>
        rw [if_neg (not_specMatches_cons_nil _ rest (by simp))]
        rfl
      | cons t ts =>
        have hstep : matchSegs (Seg.lit s :: rest) (t :: ts) =
            if s = t then matchSegs rest ts else none := rfl
        rw [hstep]
        by_cases hst : s = t
        · subst hst
          rw [if_pos rfl, ih hwf' ts]
          by_cases hsp : SpecMatches rest ts
          · rw [if_pos hsp,
              if_pos ((specMatches_cons_iff _ rest s ts (by simp)).2 ⟨by simp [segOK], hsp⟩),
              specParams_cons_lit]
          · rw [if_neg hsp, if_neg (fun h =>
              hsp ((specMatches_cons_iff _ rest s ts (by simp)).1 h).2)]
        · rw [if_neg hst, if_neg (fun h => by
            have := ((specMatches_cons_iff _ rest t ts (by simp)).1 h).1
            simp [segOK] at this
            exact hst this)]
    | par n =>
      have hwf' : wfSegs rest = true := hwf
      cases parts with
      | nil =>
        rw [if_neg (not_specMatches_cons_nil _ rest (by simp))]
        rfl
      | cons t ts =>
        have hstep : matchSegs (Seg.par n :: rest) (t :: ts) =
            (matchSegs rest ts).map (fun bs => (n, t) :: bs) := rfl
        rw [hstep, ih hwf' ts]
        by_cases hsp : SpecMatches rest ts
        · rw [if_pos hsp,
            if_pos ((specMatches_cons_iff _ rest t ts (by simp)).2 ⟨by simp [segOK], hsp⟩),
            specParams_cons_par]
          rfl
        · rw [if_neg hsp, if_neg (fun h =>
            hsp ((specMatches_cons_iff _ rest t ts (by simp)).1 h).2)]
          rfl

/-- First-match-wins over the route list, characterized by `List.find?`
on the declarative matching condition. -/
lemma matchRoutesParts_eq_find (rs : List Route) (parts : List String)
    (hwf : ∀ r ∈ rs, wfSegs (parsePattern r.pattern) = true) :
    matchRoutesParts rs parts =
      (rs.find? (fun r => decide (SpecMatches (parsePattern r.pattern) parts))).map
        (fun r => (r.handler, specParams (parsePattern r.pattern) parts)) := by
  induction rs with
  | nil => rfl
  | cons r rs ih =>
    have hr : wfSegs (parsePattern r.pattern) = true := hwf r (List.mem_cons_self r rs)
    have hstep : matchRoutesParts (r :: rs) parts =
        match matchSegs (parsePattern r.pattern) parts with
        | some bs => some (r.handler, bs)
        | none => matchRoutesParts rs parts := rfl
    rw [hstep, matchSegs_eq_spec _ hr parts]
    by_cases hsp : SpecMatches (parsePattern r.pattern) parts
    · rw [if_pos hsp, List.find?_cons_of_pos _ (by simpa using hsp)]
      rfl
    · rw [if_neg hsp, List.find?_cons_of_neg _ (by simpa using hsp)]
      exact ih (fun r' hr' => hwf r' (List.mem_cons_of_mem _ hr'))

lemma matchSegs_nil_nil : matchSegs [] [] = some [] := rfl

lemma matchSegs_nil_cons (t : String) (ts : List String) :
    matchSegs [] (t :: ts) = none := rfl

lemma matchSegs_lit_cons (s : String) (rest : List Seg) (t : String) (ts : List String) :
    matchSegs (Seg.lit s :: rest) (t :: ts) = if s = t then matchSegs rest ts else none := rfl

lemma matchSegs_lit_nil (s : String) (rest : List Seg) :
    matchSegs (Seg.lit s :: rest) [] = none := rfl

lemma matchSegs_par_cons (n : String) (rest : List Seg) (t : String) (ts : List String) :
    matchSegs (Seg.par n :: rest) (t :: ts) =
      (matchSegs rest ts).map (fun bs => (n, t) :: bs) := rfl

lemma matchSegs_par_nil (n : String) (rest : List Seg) :
    matchSegs (Seg.par n :: rest) [] = none := rfl

lemma matchSegs_wild_any (rest : List Seg) (parts : List String) :
    matchSegs (Seg.wild :: rest) parts = some [] := by
  cases parts <;> rfl

lemma parse_root : parsePattern "/" = [] := by decide

lemma parse_about : parsePattern "/about" = [Seg.lit "about"] := by decide

lemma parse_contact : parsePattern "/contact" = [Seg.lit "contact"] := by decide

lemma parse_posts : parsePattern "/posts/:id" = [Seg.lit "posts", Seg.par "id"] := by decide

lemma parse_star : parsePattern "*" = [Seg.wild] := by decide

lemma matchParts_eq (parts : List String) :
    matchRoutesParts appRoutes parts = routeResult parts := by
  rcases parts with _ | ⟨a, _ | ⟨b, _ | ⟨c, rest⟩⟩⟩
  · decide
  · by_cases h1 : a = "about"
    · subst h1
      decide
    · by_cases h2 : a = "contact"
      · subst h2
        decide
      · simp only [appRoutes, matchRoutesParts, parse_root, parse_about, parse_contact,
          parse_posts, parse_star, matchSegs_nil_cons, matchSegs_lit_cons, matchSegs_lit_nil,
          matchSegs_par_nil, matchSegs_wild_any, ite_self,
          if_neg (show ¬ "about" = a from fun h => h1 h.symm),
          if_neg (show ¬ "contact" = a from fun h => h2 h.symm),
          routeResult, if_neg h1, if_neg h2]
  · by_cases h : a = "posts"
    · subst h
      simp only [appRoutes, matchRoutesParts, parse_root, parse_about, parse_contact,
        parse_posts, parse_star, matchSegs_nil_cons, matchSegs_lit_cons, matchSegs_lit_nil,
        matchSegs_par_cons, matchSegs_nil_nil, matchSegs_wild_any, ite_self,
        Option.map_some', routeResult, if_pos rfl]
      simp
    · simp only [appRoutes, matchRoutesParts, parse_root, parse_about, parse_contact,
        parse_posts, parse_star, matchSegs_nil_cons, matchSegs_lit_cons, matchSegs_lit_nil,
        matchSegs_par_cons, matchSegs_nil_nil, matchSegs_wild_any, ite_self,
        if_neg (show ¬ "posts" = a from fun hh => h hh.symm),
        routeResult, if_neg h]
  · simp only [appRoutes, matchRoutesParts, parse_root, parse_about, parse_contact,
      parse_posts, parse_star, matchSegs_nil_cons, matchSegs_lit_cons, matchSegs_lit_nil,
      matchSegs_par_cons, matchSegs_nil_cons, matchSegs_wild_any, ite_self,
      Option.map_none', routeResult]

lemma isSeg_ne_nil {s : String} (h : isSeg s = true) : s.data ≠ [] := by
  rcases Bool.and_eq_true_iff.1 h with ⟨h1, _⟩
  simpa [List.isEmpty_iff] using h1

lemma isSeg_no_slash {s : String} (h : isSeg s = true) : ∀ c ∈ s.data, c ≠ '/' := by
  rcases Bool.and_eq_true_iff.1 h with ⟨_, h2⟩
  intro c hc
  have := (List.all_eq_true.1 h2) c hc
  simpa using this

lemma splitAux_consume (w : List Char) (hw : ∀ c ∈ w, c ≠ '/') :
    ∀ (rest cur : List Char), splitAux (w ++ rest) cur = splitAux rest (w.reverse ++ cur) := by
  induction w with
  | nil => simp
  | cons c cs ih =>
    intro rest cur
    have hc : c ≠ '/' := hw c (List.mem_cons_self c cs)
    have hstep : splitAux ((c :: cs) ++ rest) cur = splitAux (cs ++ rest) (c :: cur) := by
      simp only [List.cons_append, splitAux]
      rw [if_neg hc]
      rfl
    rw [hstep, ih (fun d hd => hw d (List.mem_cons_of_mem _ hd)) rest (c :: cur)]
    simp

lemma splitAux_slash (rest cur : List Char) (h : cur ≠ []) :
    splitAux ('/' :: rest) cur = cur.reverse :: splitAux rest [] := by
  simp only [splitAux, if_true]
  rw [if_neg h]

lemma splitAux_slash_nil (rest : List Char) :
    splitAux ('/' :: rest) [] = splitAux rest [] := by
  simp only [splitAux, if_true]

lemma splitAux_nil_cur (cur : List Char) (h : cur ≠ []) :
    splitAux [] cur = [cur.reverse] := by
  simp only [splitAux]
  rw [if_neg h]

lemma splitAux_join (segs : List String) (h : ∀ s ∈ segs, isSeg s = true) :
    splitAux (joinSegs segs).data [] = segs.map String.data := by
  induction segs with
  | nil => rfl
  | cons s rest ih =>
    have hs : isSeg s = true := h s (List.mem_cons_self s rest)
    have hdata : (joinSegs (s :: rest)).data = '/' :: (s.data ++ (joinSegs rest).data) := by
      simp [joinSegs]
    rw [hdata, splitAux_slash_nil,
      splitAux_consume s.data (isSeg_no_slash hs) (joinSegs rest).data []]
    rcases rest with _ | ⟨t, r⟩
    · rw [show (joinSegs [] : String).data = [] from rfl]
      rw [splitAux_nil_cur _ (by simpa using isSeg_ne_nil hs)]
      simp
    · have ht : isSeg t = true := h t (List.mem_cons_of_mem _ (List.mem_cons_self t r))
      have hjd : (joinSegs (t :: r)).data = '/' :: (t.data ++ (joinSegs r).data) := by
        simp [joinSegs]
      have hrec := ih (fun u hu => h u (List.mem_cons_of_mem _ hu))
      rw [hjd] at hrec
      rw [List.append_nil, hjd,
        splitAux_slash _ _ (by simpa using isSeg_ne_nil hs),
        ← splitAux_slash_nil (t.data ++ (joinSegs r).data), hrec]
      simp

lemma splitPath_joinSegs (segs : List String) (h : ∀ s ∈ segs, isSeg s = true) :
    splitPath (joinSegs segs) = segs := by
  rw [splitPath, splitAux_join segs h, List.map_map]
  have : (fun l => String.mk l) ∘ String.data = id := by
    funext s
    cases s
    rfl
  rw [this, List.map_id]

lemma splitPath_buildPath (segs : List String) (h : ∀ s ∈ segs, isSeg s = true) :
    splitPath (buildPath segs) = segs := by
  rcases segs with _ | ⟨s, rest⟩
  · rfl
  · rw [buildPath, if_neg (by simp)]
    exact splitPath_joinSegs _ h

lemma digitChar_ne_slash (m : Nat) : Nat.digitChar m ≠ '/' := by
  by_cases h16 : m < 16
  · interval_cases m <;> decide
  · have h : Nat.digitChar m = '*' := by
      unfold Nat.digitChar
      repeat rw [if_neg (by omega)]
    rw [h]
    decide

lemma toDigitsCore_succ (fuel n : Nat) (ds : List Char) :
    Nat.toDigitsCore 10 (fuel + 1) n ds =
      if n / 10 = 0 then Nat.digitChar (n % 10) :: ds
      else Nat.toDigitsCore 10 fuel (n / 10) (Nat.digitChar (n % 10) :: ds) := by
  conv_lhs => unfold Nat.toDigitsCore

lemma toDigitsCore_ne_slash (fuel : Nat) :
    ∀ (n : Nat) (ds : List Char), (∀ c ∈ ds, c ≠ '/') →
      ∀ c ∈ Nat.toDigitsCore 10 fuel n ds, c ≠ '/' := by
  induction fuel with
  | zero =>
    intro n ds h c hc
    exact h c hc
  | succ fuel ih =>
    intro n ds h c hc
    rw [toDigitsCore_succ] at hc
    have hcons : ∀ d ∈ Nat.digitChar (n % 10) :: ds, d ≠ '/' := by
      intro d hd
      rcases List.mem_cons.1 hd with rfl | hd'
      · exact digitChar_ne_slash _
      · exact h d hd'
    by_cases hq : n / 10 = 0
    · rw [if_pos hq] at hc
      exact hcons c hc
    · rw [if_neg hq] at hc
      exact ih (n / 10) (Nat.digitChar (n % 10) :: ds) hcons c hc

lemma toDigitsCore_ne_nil (fuel : Nat) :
    ∀ (n : Nat) (ds : List Char), ds ≠ [] → Nat.toDigitsCore 10 fuel n ds ≠ [] := by
  induction fuel with
  | zero =>
    intro n ds h
    exact h
  | succ fuel ih =>
    intro n ds h
    rw [toDigitsCore_succ]
    by_cases hq : n / 10 = 0
    · rw [if_pos hq]
      exact List.cons_ne_nil _ _
    · rw [if_neg hq]
      exact ih (n / 10) _ (List.cons_ne_nil _ _)

lemma toDigits_ne_nil (n : Nat) : Nat.toDigits 10 n ≠ [] := by
  rw [Nat.toDigits, toDigitsCore_succ]
  by_cases hq : n / 10 = 0
  · rw [if_pos hq]
    exact List.cons_ne_nil _ _
  · rw [if_neg hq]
    exact toDigitsCore_ne_nil n (n / 10) _ (List.cons_ne_nil _ _)

lemma toString_nat_data (n : Nat) : (toString n).data = Nat.toDigits 10 n := rfl

/-- The decimal representation of a natural number is a valid path
segment: nonempty and slash-free. -/
lemma isSeg_toString (n : Nat) : isSeg (toString n) = true := by
  rw [isSeg]
  apply Bool.and_eq_true_iff.2
  constructor
  · rw [toString_nat_data]
    simp [List.isEmpty_iff, toDigits_ne_nil n]
  · apply List.all_eq_true.2
    intro c hc
    rw [toString_nat_data] at hc
    have := toDigitsCore_ne_slash (n + 1) n [] (by simp) c hc
    simpa using this

lemma posts_path_eq (s : String) : "/posts/" ++ s = joinSegs ["posts", s] := by
  apply String.ext
  simp only [joinSegs, String.data_append,
    show ("/posts/" : String).data = ['/', 'p', 'o', 's', 't', 's', '/'] from rfl,
    show ("/" : String).data = ['/'] from rfl,
    show ("posts" : String).data = ['p', 'o', 's', 't', 's'] from rfl,
    show ("" : String).data = [] from rfl]
  simp

lemma splitPath_posts (s : String) (hs : isSeg s = true) :
    splitPath ("/posts/" ++ s) = ["posts", s] := by
  rw [posts_path_eq, splitPath_joinSegs]
  intro u hu
  rcases List.mem_cons.1 hu with rfl | hu'
  · decide
  · rcases List.mem_cons.1 hu' with rfl | h
    · exact hs
    · simp at h

lemma matchRoutes_posts_path (s : String) (hs : isSeg s = true) :
    matchRoutes appRoutes ("/posts/" ++ s) =
      some (Handler.PostDetailPage, [("id", s)]) := by
  rw [matchRoutes, splitPath_posts s hs, matchParts_eq]
  simp [routeResult]

lemma routeResult_isSome (parts : List String) : (routeResult parts).isSome = true := by
  rcases parts with _ | ⟨a, _ | ⟨b, _ | ⟨c, rest⟩⟩⟩
  · rfl
  · rw [routeResult]
    split_ifs <;> rfl
  · rw [routeResult]
    split_ifs <;> rfl
  · rfl

lemma existsUnique_first (p : Nat → Prop) (h : ∃ i, p i) :
    ∃! i, p i ∧ ∀ j < i, ¬ p j := by
  classical
  refine ⟨Nat.find h, ⟨Nat.find_spec h, fun j hj => Nat.find_min h hj⟩, ?_⟩
  rintro i ⟨hpi, hleast⟩
  rcases lt_trichotomy i (Nat.find h) with hlt | heq | hgt
  · exact absurd hpi (Nat.find_min h hlt)
  · exact heq
  · exact absurd (Nat.find_spec h) (hleast _ hgt)

lemma nil_isPrefixOf_true (l : List String) : ([] : List String).isPrefixOf l = true := by
  cases l <;> rfl

lemma routeMatchesIdx_four (path : String) : routeMatchesIdx path 4 = true := by
  show (matchSegs (parsePattern "*") (splitPath path)).isSome = true
  rw [parse_star, matchSegs_wild_any]
  rfl

lemma notFound_iff_parts (parts : List String) :
    routeResult parts = some (Handler.NotFound, []) ↔
      ∀ r ∈ appRoutes, r.pattern ≠ "*" → matchSegs (parsePattern r.pattern) parts = none := by
  rcases parts with _ | ⟨a, _ | ⟨b, _ | ⟨c, rest⟩⟩⟩
  · simp [routeResult, appRoutes, parse_root, parse_about, parse_contact, parse_posts,
      parse_star, matchSegs_nil_nil, matchSegs_lit_nil, matchSegs_par_nil]
  · by_cases h1 : a = "about"
    · subst h1
      decide
    · by_cases h2 : a = "contact"
      · subst h2
        decide
      · simp [routeResult, appRoutes, parse_root, parse_about, parse_contact, parse_posts,
          parse_star, matchSegs_nil_cons, matchSegs_lit_cons, matchSegs_lit_nil,
          matchSegs_par_nil, matchSegs_wild_any, ite_self, if_neg h1, if_neg h2,
          if_neg (show ¬ "about" = a from fun h => h1 h.symm),
          if_neg (show ¬ "contact" = a from fun h => h2 h.symm)]
  · by_cases h : a = "posts"
    · subst h
      simp [routeResult, appRoutes, parse_root, parse_about, parse_contact, parse_posts,
        parse_star, matchSegs_nil_cons, matchSegs_lit_cons, matchSegs_lit_nil,
        matchSegs_par_cons, matchSegs_nil_nil, matchSegs_wild_any, ite_self, Option.map_some']
    · simp [routeResult, appRoutes, parse_root, parse_about, parse_contact, parse_posts,
        parse_star, matchSegs_nil_cons, matchSegs_lit_cons, matchSegs_lit_nil,
        matchSegs_par_cons, matchSegs_nil_nil, matchSegs_wild_any, ite_self, if_neg h,
        if_neg (show ¬ "posts" = a from fun hh => h hh.symm)]
  · simp [routeResult, appRoutes, parse_root, parse_about, parse_contact, parse_posts,
      parse_star, matchSegs_nil_cons, matchSegs_lit_cons, matchSegs_par_cons,
      matchSegs_wild_any, ite_self, Option.map_none']

/-- Claim C1: reaching `/posts/2` by direct path entry binds params
`[("id", "2")]` and attaches no payload; the PostDetail source then
dereferences `useLocation().state.title` on the absent state, so the
render fails (modelled as `none`) instead of rendering normally. -/
theorem postdetail_direct_entry_behavior :
    matchRoutes appRoutes "/posts/2" = some (Handler.PostDetailPage, [("id", "2")])
    ∧ (directEntry "/posts/2").state = none
    ∧ PostDetail [("id", "2")] (directEntry "/posts/2").state = none :=
  ⟨by decide, rfl, rfl⟩

/-- Claim C2: activating the PostList link of any post navigates to
`/posts/<id>` with the whole post attached as payload; the mounted
handler is PostDetail with params binding `id` to the post's id rendered
as a string, and the payload read back is identical to the post.  In
particular this holds for the post titled `Second Post` with id 2. -/
theorem payload_roundtrip :
    (∀ post : Post,
      (activateLink (postLink post)).state = some post ∧
      matchRoutes appRoutes (activateLink (postLink post)).path =
        some (Handler.PostDetailPage, [("id", toString post.id)]))
    ∧ (activateLink (postLink ⟨2, "Second Post", "This is the second post."⟩)).state =
        some ⟨2, "Second Post", "This is the second post."⟩
    ∧ matchRoutes appRoutes
        (activateLink (postLink ⟨2, "Second Post", "This is the second post."⟩)).path =
        some (Handler.PostDetailPage, [("id", "2")]) := by
  refine ⟨fun post => ⟨rfl, ?_⟩, rfl, by decide⟩
  show matchRoutes appRoutes ("/posts/" ++ toString post.id) = _
  exact matchRoutes_posts_path _ (isSeg_toString post.id)

/-- Witness for claim C2 at a concrete post record. -/
theorem payload_roundtrip_witness :
    (activateLink (postLink ⟨7, "T", "C"⟩)).state = some ⟨7, "T", "C"⟩ ∧
    matchRoutes appRoutes (activateLink (postLink ⟨7, "T", "C"⟩)).path =
      some (Handler.PostDetailPage, [("id", toString (7 : Nat))]) :=
  payload_roundtrip.1 ⟨7, "T", "C"⟩

/-- Claim C3: the matcher walks the ordered route list and returns the
first route whose pattern matches declaratively (segment counts equal
unless the pattern ends in a wildcard; literal segments equal exactly;
parameter segments match unconditionally), binding parameters to the
corresponding path segment values. -/
theorem matcher_follows_spec (rs : List Route) (path : String)
    (hwf : ∀ r ∈ rs, wfSegs (parsePattern r.pattern) = true) :
    matchRoutes rs path =
      (rs.find? (fun r =>
          decide (SpecMatches (parsePattern r.pattern) (splitPath path)))).map
        (fun r => (r.handler, specParams (parsePattern r.pattern) (splitPath path))) :=
  matchRoutesParts_eq_find rs (splitPath path) hwf

/-- Witness for claim C3 on the registered route table. -/
theorem matcher_follows_spec_witness :
    (∀ r ∈ appRoutes, wfSegs (parsePattern r.pattern) = true) ∧
    matchRoutes appRoutes "/posts/9" =
      ((appRoutes.find? (fun r =>
          decide (SpecMatches (parsePattern r.pattern) (splitPath "/posts/9")))).map
        (fun r => (r.handler, specParams (parsePattern r.pattern) (splitPath "/posts/9")))) :=
  ⟨by decide, matcher_follows_spec appRoutes "/posts/9" (by decide)⟩

/-- Claim C4: for every path exactly one route of the registered table
is selected (the first matching index exists and is unique, guaranteed
by the trailing wildcard), the match result exists uniquely, and
parameter extraction is deterministic in the (pattern, path) pair. -/
theorem unique_route_selection (path : String) :
    (∃! i : Nat, routeMatchesIdx path i = true ∧ ∀ j < i, routeMatchesIdx path j = false)
    ∧ (∃! res : Handler × List (String × String), matchRoutes appRoutes path = some res)
    ∧ (∀ (pat : String) (bs bs' : List (String × String)),
        matchSegs (parsePattern pat) (splitPath path) = some bs →
        matchSegs (parsePattern pat) (splitPath path) = some bs' → bs = bs') := by
  refine ⟨?_, ?_, ?_⟩
  · have hex : ∃ i, routeMatchesIdx path i = true := ⟨4, routeMatchesIdx_four path⟩
    have h := existsUnique_first (fun i => routeMatchesIdx path i = true) hex
    simpa only [Bool.not_eq_true] using h
  · have hsome : (matchRoutes appRoutes path).isSome = true := by
      rw [matchRoutes, matchParts_eq]
      exact routeResult_isSome _
    obtain ⟨v, hv⟩ := Option.isSome_iff_exists.1 hsome
    refine ⟨v, hv, fun y hy => ?_⟩
    rw [hv] at hy
    exact (Option.some_inj.1 hy).symm
  · intro pat bs bs' h1 h2
    rw [h1] at h2
    exact Option.some_inj.1 h2

/-- Witness for claim C4 at a concrete path. -/
theorem unique_route_selection_witness :
    (∃! i : Nat,
      routeMatchesIdx "/contact" i = true ∧ ∀ j < i, routeMatchesIdx "/contact" j = false)
    ∧ (∃! res : Handler × List (String × String), matchRoutes appRoutes "/contact" = some res)
    ∧ (∀ (pat : String) (bs bs' : List (String × String)),
        matchSegs (parsePattern pat) (splitPath "/contact") = some bs →
        matchSegs (parsePattern pat) (splitPath "/contact") = some bs' → bs = bs') :=
  unique_route_selection "/contact"

/-- Claim C5: the matcher never fails (it always selects a handler); it
selects NotFound with empty params exactly for the paths on which no
non-wildcard route matches; in particular `/unknown/x` resolves to
NotFound with empty params. -/
theorem wildcard_fallback :
    (∀ path : String, (matchRoutes appRoutes path).isSome = true)
    ∧ (∀ path : String,
        matchRoutes appRoutes path = some (Handler.NotFound, []) ↔
          ∀ r ∈ appRoutes, r.pattern ≠ "*" →
            matchSegs (parsePattern r.pattern) (splitPath path) = none)
    ∧ matchRoutes appRoutes "/unknown/x" = some (Handler.NotFound, []) := by
  refine ⟨?_, ?_, by decide⟩
  · intro path
    rw [matchRoutes, matchParts_eq]
    exact routeResult_isSome _
  · intro path
    rw [matchRoutes, matchParts_eq]
    exact notFound_iff_parts _

/-- Witness for claim C5 at a concrete unmatched path. -/
theorem wildcard_fallback_witness :
    (matchRoutes appRoutes "/unknown/x").isSome = true ∧
    (matchRoutes appRoutes "/unknown/x" = some (Handler.NotFound, []) ↔
      ∀ r ∈ appRoutes, r.pattern ≠ "*" →
        matchSegs (parsePattern r.pattern) (splitPath "/unknown/x") = none) :=
  ⟨wildcard_fallback.1 "/unknown/x", wildcard_fallback.2.1 "/unknown/x"⟩

/-- Claim C6: substituting valid segment values for the parameter
segments of any registered non-wildcard route yields a path that the
table resolves to that route's handler, with the params mapping exactly
recovering the substituted values; in particular `/posts/42` resolves to
PostDetail with params `[("id", "42")]`. -/
theorem substitution_roundtrip :
    (∀ r ∈ appRoutes, r.pattern ≠ "*" →
      ∀ vals : String → String, (∀ n, isSeg (vals n) = true) →
        matchRoutes appRoutes (buildPath (substSegs (parsePattern r.pattern) vals)) =
          some (r.handler, (paramNames (parsePattern r.pattern)).map (fun n => (n, vals n))))
    ∧ matchRoutes appRoutes "/posts/42" = some (Handler.PostDetailPage, [("id", "42")]) := by
  constructor
  · intro r hr hstar vals hvals
    simp only [appRoutes, List.mem_cons, List.not_mem_nil, or_false] at hr
    rcases hr with rfl | rfl | rfl | rfl | rfl
    · exact (by decide : matchRoutes appRoutes "/" = some (Handler.Home, []))
    · exact (by decide : matchRoutes appRoutes "/about" = some (Handler.About, []))
    · exact (by decide : matchRoutes appRoutes "/contact" = some (Handler.Contact, []))
    · show matchRoutes appRoutes (buildPath ["posts", vals "id"]) =
        some (Handler.PostDetailPage, [("id", vals "id")])
      rw [buildPath, if_neg (by simp : ¬ ((["posts", vals "id"] : List String).isEmpty = true)),
        ← posts_path_eq]
      exact matchRoutes_posts_path _ (hvals "id")
    · exact absurd rfl hstar
  · decide

/-- Witness for claim C6 on the `/posts/:id` route with value 42. -/
theorem substitution_roundtrip_witness :
    (∀ n : String, isSeg ((fun _ => "42") n) = true) ∧
    matchRoutes appRoutes
        (buildPath (substSegs (parsePattern "/posts/:id") (fun _ => "42"))) =
      some (Handler.PostDetailPage,
        (paramNames (parsePattern "/posts/:id")).map (fun n => (n, (fun _ => "42") n))) :=
  ⟨by intro n; show isSeg "42" = true; decide,
   substitution_roundtrip.1 ⟨"/posts/:id", Handler.PostDetailPage⟩ (by decide) (by decide)
     (fun _ => "42") (by intro n; show isSeg "42" = true; decide)⟩

/-- Claim C7: a navbar link whose target equals the current path is
active; in default (prefix) mode the link to `/` is active for every
path and the link to `/about` is active for `/about` and its sub-paths;
exact-match mode requires full equality, so `/about` is inactive at
`/about/x` in exact mode but active there in prefix mode. -/
theorem active_link_rules :
    (∀ current : String, ∀ l ∈ Navbar current, l.toPath = current → l.active = true)
    ∧ (∀ current : String, isActive "/" current false = true)
    ∧ (∀ parts : List String, (∀ s ∈ parts, isSeg s = true) →
        isActive "/about" (buildPath ("about" :: parts)) false = true)
    ∧ isActive "/about" "/about" false = true
    ∧ isActive "/about" "/about/x" false = true
    ∧ isActive "/about" "/about/x" true = false
    ∧ (∀ target current : String, isActive target current true = true ↔ target = current) := by
  refine ⟨?_, ?_, ?_, by decide, by decide, by decide, ?_⟩
  · intro current l hl hEq
    simp only [Navbar, List.mem_cons, List.not_mem_nil, or_false] at hl
    rcases hl with rfl | rfl | rfl
    · have hc : "/" = current := hEq
      subst hc
      decide
    · have hc : "/about" = current := hEq
      subst hc
      decide
    · have hc : "/contact" = current := hEq
      subst hc
      decide
  · intro current
    rw [isActive, if_neg (by decide : ¬ (false = true)), pathPrefixOf,
      show splitPath "/" = [] from rfl]
    exact nil_isPrefixOf_true _
  · intro parts hparts
    have hsp : splitPath (buildPath ("about" :: parts)) = "about" :: parts := by
      apply splitPath_buildPath
      intro s hs
      rcases List.mem_cons.1 hs with rfl | h
      · decide
      · exact hparts s h
    rw [isActive, if_neg (by decide : ¬ (false = true)), pathPrefixOf, hsp,
      show splitPath "/about" = ["about"] from rfl,
      show (["about"] : List String).isPrefixOf ("about" :: parts) =
        (("about" == "about") && ([] : List String).isPrefixOf parts) from rfl,
      nil_isPrefixOf_true]
    decide
  · intro target current
    rw [isActive, if_pos rfl]
    exact beq_iff_eq

/-- Witness for claim C7 on the sub-path case. -/
theorem active_link_rules_witness :
    (∀ s ∈ ["x"], isSeg s = true) ∧
    isActive "/about" (buildPath ("about" :: ["x"])) false = true :=
  ⟨by decide, active_link_rules.2.2.1 ["x"] (by decide)⟩

/-- Claim C8: the URL a PostList link navigates to depends only on the
post's id — two posts with the same id but different titles or contents
produce identical target paths, so the payload is not observable in the
URL. -/
theorem url_payload_independence (p q : Post) (h : p.id = q.id) :
    (postLink p).toPath = (postLink q).toPath := by
  show "/posts/" ++ toString p.id = "/posts/" ++ toString q.id
  rw [h]

/-- Witness for claim C8 with two posts sharing id 2. -/
theorem url_payload_independence_witness :
    (⟨2, "Second Post", "A"⟩ : Post).id = (⟨2, "Other title", "B"⟩ : Post).id ∧
    (postLink ⟨2, "Second Post", "A"⟩).toPath = (postLink ⟨2, "Other title", "B"⟩).toPath :=
  ⟨rfl, url_payload_independence _ _ rfl⟩

/-- Claim C9: App renders the same set of navbar links (to `/`, `/about`
and `/contact`) for every location; the mounted part is exactly the
matched handler of the current path; and the rendered output depends
only on the current path, so a location change can change nothing but
the mounted handler (and the active markings derived from the path). -/
theorem persistent_shell :
    (∀ loc : Location Post,
      (App loc).navbar.map (fun l => (l.toPath, l.label)) =
        [("/", "Home"), ("/about", "About"), ("/contact", "Contact")])
    ∧ (∀ loc : Location Post, (App loc).mounted = matchRoutes appRoutes loc.path)
    ∧ (∀ loc loc' : Location Post, loc.path = loc'.path → App loc = App loc')
    ∧ (∀ loc loc' : Location Post,
        (App loc).navbar.map (fun l => (l.toPath, l.label)) =
          (App loc').navbar.map (fun l => (l.toPath, l.label))) := by
  refine ⟨fun loc => rfl, fun loc => rfl, ?_, fun loc loc' => rfl⟩
  intro loc loc' h
  rw [App, App, h]

/-- Witness for claim C9: two locations with the same path but different
payloads render identically. -/
theorem persistent_shell_witness :
    App (directEntry "/about") = App ⟨"/about", some ⟨2, "Second Post", "y"⟩⟩ :=
  persistent_shell.2.2.1 _ _ rfl

/-- Claim C10: PostList renders the `Blog Posts` heading and exactly one
link per post, in input order: the link at index `i` targets
`/posts/<id>`, shows the post's title, and carries the whole post as
payload. -/
theorem postlist_renders_links (posts : List Post) :
    (PostList posts).heading = "Blog Posts"
    ∧ (PostList posts).links.length = posts.length
    ∧ ∀ i : Nat, ((PostList posts).links)[i]? =
        (posts[i]?).map
          (fun p => (⟨"/posts/" ++ toString p.id, p, p.title⟩ : LinkElem)) := by
  refine ⟨rfl, by simp [PostList], fun i => ?_⟩
  show (posts.map postLink)[i]? = _
  rw [List.getElem?_map]
  rfl

/-- Witness for claim C10 on the Home page's posts list. -/
theorem postlist_renders_links_witness :
    (PostList homePosts).heading = "Blog Posts" ∧
    (PostList homePosts).links.length = homePosts.length ∧
    ((PostList homePosts).links)[1]? =
      (homePosts[1]?).map
        (fun p => (⟨"/posts/" ++ toString p.id, p, p.title⟩ : LinkElem)) :=
  ⟨(postlist_renders_links homePosts).1, (postlist_renders_links homePosts).2.1,
   (postlist_renders_links homePosts).2.2 1⟩

end RouterDemo
